import Mathlib

/-!
Verification of the podbot backend (src/backend) against its specification.

Shallow embedding conventions, used throughout:
* Python `datetime` values are modelled as `Int` epoch seconds;
  `datetime.isoformat()` / `str(...)` is modelled by `isoformatInt`
  (its decimal rendering) — all that matters for the claims is that the
  result is a string, not a datetime.
* Python `float` arithmetic on durations (`timedelta.total_seconds()`,
  divisions by 60/3600) is modelled exactly in `ℚ`; `round(x, 1)` is
  modelled by `pyRound1` (rational rounding to one decimal).
* Python strings are Lean `String`s; slicing `s[:n]` is `pySlice`,
  substring membership `sub in s` is `pyContains`, `str.strip()` is
  `pyStrip`.  Apostrophes occurring inside narration string literals of
  the source are elided (the embedding stores plain text); the templates
  are otherwise the same.
* Fallible calls (external APIs, raised exceptions) are `Except String`;
  a raised Python exception is `Except.error msg`.
-/

/-- Model of `datetime.isoformat()` (resp. `str`) applied to a timestamp:
an abstract string rendering of the instant.  The schedule analyzer stores
these strings in its result dictionaries. -/
def isoformatInt (t : Int) : String := toString t

/-- Model of Python `round(x, 1)`: round to one decimal place.  (CPython
rounds floats half-to-even; over `ℚ` we use the standard `round`, which
differs only at exact ties, which no claim exercises.) -/
def pyRound1 (q : ℚ) : ℚ := ((round (q * 10) : ℤ) : ℚ) / 10

/-- Model of Python string slicing `s[:n]`. -/
def pySlice (s : String) (n : Nat) : String := String.mk (s.data.take n)

/-- Model of Python `sub in s` (substring containment). -/
def pyContains (s sub : String) : Bool := 1 < (s.splitOn sub).length

/-- Model of Python `s.endswith(suffix)`. -/
def pyEndsWith (s suf : String) : Bool := suf.data.isSuffixOf s.data

/-- Model of Python `s.strip()`. -/
def pyStrip (s : String) : String := s.trim

/-- An event attendee as produced by `GoogleCalendarService._process_event`
(google_services.py): email, display name, RSVP status. -/
structure Attendee where
  email : String
  name : String
  status : String
deriving DecidableEq

/-- An event attachment as produced by `_process_event`: title, URL, MIME
type. -/
structure Attachment where
  title : String
  fileUrl : String
  mimeType : String
deriving DecidableEq

/-- A processed calendar event (the dictionary `_process_event` returns;
calendar/creator/meeting-info metadata not used by any claim is omitted).
`start_time` and `end_time` are datetimes, modelled as epoch seconds. -/
structure Event where
  id : String
  title : String
  description : String
  start_time : Int
  end_time : Int
  is_all_day : Bool
  location : String
  attendees : List Attendee
  attachments : List Attachment
deriving DecidableEq

/-- A free-time block of `analyze_day_schedule` (google_services.py lines
254-259): note `start`/`end` hold ISOFORMAT STRINGS (`end` is the reserved
word, hence the field name `end_`). -/
structure FreeBlock where
  start : String
  end_ : String
  duration_minutes : ℚ
deriving DecidableEq

/-- The `longest_meeting` dictionary of `analyze_day_schedule` (lines
263-269): `start_time`/`end_time` are ISOFORMAT STRINGS, not datetimes
(`x.isoformat() if hasattr(x, ...) else str(x)`). -/
structure LongestMeeting where
  title : String
  duration_seconds : ℚ
  start_time : String
  end_time : String
deriving DecidableEq

/-- The dictionary returned by
`GoogleCalendarService.analyze_day_schedule`. -/
structure ScheduleAnalysis where
  total_events : Nat
  busy_hours : ℚ
  free_time_blocks : List FreeBlock
  meeting_density : String
  longest_meeting : Option LongestMeeting
  back_to_back_meetings : Nat
deriving DecidableEq

/-- The comparison `sorted(events, key=lambda x: x.start_time)` sorts by. -/
def eventBefore (a b : Event) : Prop := a.start_time ≤ b.start_time

instance : DecidableRel eventBefore :=
  fun a b => inferInstanceAs (Decidable (a.start_time ≤ b.start_time))

/-- Python `sorted(events, key=lambda x: x.start_time)` — a stable sort by
start time (insertion sort is stable, like timsort). -/
def sortEvents (events : List Event) : List Event :=
  List.insertionSort eventBefore events

/-- The gap between an adjacent pair of sorted events, in minutes:
`(next_start - current_end).total_seconds() / 60`. -/
def gapMinutes (p : Event × Event) : ℚ := ((p.2.start_time - p.1.end_time : ℤ) : ℚ) / 60

/-- The free-block dictionary appended for a pair whose gap exceeds 30
minutes (lines 255-259). -/
def mkFreeBlock (p : Event × Event) : FreeBlock :=
  { start := isoformatInt p.1.end_time
    end_ := isoformatInt p.2.start_time
    duration_minutes := gapMinutes p }

/-- An event duration in whole seconds, `(end - start).total_seconds()`. -/
def durSeconds (e : Event) : Int := e.end_time - e.start_time

/-- Python `max(events, key=lambda x: (x.end_time - x.start_time).total_seconds())`:
first maximal element (replace only on strictly greater key). -/
def longestEvent : List Event → Option Event
  | [] => none
  | h :: t => some (t.foldl (fun best e => if durSeconds best < durSeconds e then e else best) h)

/-- `GoogleCalendarService.analyze_day_schedule` (google_services.py lines
225-298).  The adjacent-pair loops `for i in range(len(events) - 1)` over
`events[i], events[i+1]` are written as folds over `evs.zip evs.tail`,
which enumerates exactly those pairs in order. -/
def analyze_day_schedule (events : List Event) : ScheduleAnalysis :=
  if events.isEmpty then
    { total_events := 0, busy_hours := 0, free_time_blocks := [],
      meeting_density := "light", longest_meeting := none,
      back_to_back_meetings := 0 }
  else
    let evs := sortEvents events
    let total_events := evs.length
    let busy_hours : ℚ :=
      ((evs.filter (fun e => !e.is_all_day)).map
        (fun e => ((e.end_time - e.start_time : ℤ) : ℚ) / 3600)).sum
    let free_blocks :=
      (evs.zip evs.tail).foldl
        (fun acc p => if gapMinutes p > 30 then acc ++ [mkFreeBlock p] else acc)
        ([] : List FreeBlock)
    let longest_meeting :=
      (longestEvent evs).map (fun e =>
        { title := e.title
          duration_seconds := ((e.end_time - e.start_time : ℤ) : ℚ)
          start_time := isoformatInt e.start_time
          end_time := isoformatInt e.end_time : LongestMeeting })
    let back_to_back :=
      (evs.zip evs.tail).foldl
        (fun acc p => if gapMinutes p ≤ 15 then acc + 1 else acc) 0
    let density :=
      if total_events ≥ 8 then "heavy"
      else if total_events ≥ 4 then "moderate"
      else "light"
    { total_events := total_events
      busy_hours := pyRound1 busy_hours
      free_time_blocks := free_blocks
      meeting_density := density
      longest_meeting := longest_meeting
      back_to_back_meetings := back_to_back }

/-- One formatted meeting of `ContentProcessor._format_meeting_details`
(content_processor.py lines 107-141). -/
structure MeetingDetail where
  title : String
  time : String
  duration : String
  location : String
  attendee_count : Nat
  has_attachments : Bool
  description : String
deriving DecidableEq

/-- Model of `strftime` clock rendering (the exact text is irrelevant to
every claim; only determinism matters). -/
def fmtClock (t : Int) : String := toString t

/-- Model of one-decimal float formatting such as f-string .1f. -/
def fmt1 (q : ℚ) : String := toString q

/-- `ContentProcessor._format_meeting_details`. -/
def format_meeting_details (events : List Event) : List MeetingDetail :=
  events.map (fun event =>
    let time_str :=
      if event.is_all_day then "All day"
      else fmtClock event.start_time ++ " - " ++ fmtClock event.end_time
    let duration_str :=
      if !event.is_all_day then
        let duration_minutes : ℚ := ((event.end_time - event.start_time : ℤ) : ℚ) / 60
        if duration_minutes ≥ 60 then fmt1 (duration_minutes / 60) ++ " hours"
        else toString ⌊duration_minutes⌋ ++ " minutes"
      else "All day"
    { title := event.title
      time := time_str
      duration := duration_str
      location := event.location
      attendee_count := event.attendees.length
      has_attachments := decide (0 < event.attachments.length)
      description :=
        if 200 < event.description.length then pySlice event.description 200 ++ "..."
        else event.description })

/-- The dictionary `ContentProcessor._create_calendar_summary` returns.
(The empty-events branch of the source returns a dictionary without a
`meeting_details` key; that is modelled as the empty list.) -/
structure CalendarSummary where
  type : String
  summary : String
  total_events : Nat
  busy_hours : ℚ
  key_highlights : List String
  meeting_details : List MeetingDetail
deriving DecidableEq

/-- `ContentProcessor._create_calendar_summary` (content_processor.py lines
41-105).  For non-empty event lists the source reaches
`(longest[end_time] - longest[start_time]).total_seconds()` (line 94) in
which both operands are the ISOFORMAT STRINGS stored by
`analyze_day_schedule`; CPython raises a `TypeError` there, modelled as
`Except.error`.  The highlight would be appended only when the computed
duration exceeded 2 hours (line 95). -/
def create_calendar_summary (events : List Event) (analysis : ScheduleAnalysis) :
    Except String CalendarSummary :=
  if events.isEmpty then
    .ok { type := "light_day"
          summary := "You have a light day ahead with no scheduled meetings."
          total_events := 0, busy_hours := 0, key_highlights := []
          meeting_details := [] }
  else
    let density := analysis.meeting_density
    let day_type :=
      if density = "heavy" then "busy_day"
      else if density = "moderate" then "moderate_day"
      else "light_day"
    let total_events := analysis.total_events
    let busy_hours := analysis.busy_hours
    let summary :=
      if density = "heavy" then
        "You have a packed day with " ++ toString total_events ++
          " meetings spanning " ++ fmt1 busy_hours ++ " hours."
      else if density = "moderate" then
        "You have a moderately busy day with " ++ toString total_events ++
          " meetings over " ++ fmt1 busy_hours ++ " hours."
      else
        "You have a light day with " ++ toString total_events ++
          " meetings taking up " ++ fmt1 busy_hours ++ " hours."
    let summary :=
      if 0 < analysis.back_to_back_meetings then
        summary ++ " You have " ++ toString analysis.back_to_back_meetings ++
          " back-to-back meetings."
      else summary
    let important_meetings := events.filter (fun event =>
      5 < event.attendees.length ||
        event.attendees.any (fun att =>
          pyContains att.email "@" && !pyEndsWith att.email "@gmail.com"))
    let highlights : List String :=
      if !important_meetings.isEmpty then
        ["Important meetings: " ++
          String.intercalate ", " ((important_meetings.take 3).map (·.title))]
      else []
    let travel_meetings := events.filter (fun event => event.location ≠ "")
    let highlights :=
      if !travel_meetings.isEmpty then
        -- list(set(...)): Python set iteration order is modelled by dedup.
        let locations := (travel_meetings.map (·.location)).dedup
        highlights ++ ["Travel required to: " ++ String.intercalate ", " (locations.take 2)]
      else highlights
    match analysis.longest_meeting with
    | some _ =>
        -- line 94: subtraction of the two isoformat strings raises.
        .error "TypeError: unsupported operand types for -: str and str"
    | none =>
        .ok { type := day_type, summary := summary, total_events := total_events
              busy_hours := busy_hours, key_highlights := highlights
              meeting_details := format_meeting_details events }

/-- A document dictionary as returned by `GoogleDocsService.get_recent_documents`
/ `get_documents_shared_with_user` (google_services.py lines 331-338,
391-400); owner metadata not used by any claim is omitted.
`modified_time` is a datetime, modelled as epoch seconds. -/
structure Doc where
  id : String
  name : String
  modified_time : Int
  web_link : String
deriving DecidableEq

/-- A merged entry of `_prioritize_documents`: the spread document fields
plus the accumulated `priority_score` and provenance `sources`. -/
structure ScoredDoc where
  doc : Doc
  priority_score : Int
  sources : List String
deriving DecidableEq

/-- The Python dict `all_docs`, keyed by document id: an insertion-ordered
association list.  Updating an existing key keeps its position; a new key
is appended (CPython dict semantics). -/
abbrev DocDict := List (String × ScoredDoc)

/-- Dictionary lookup `d[k]` / `k in d`. -/
def dictGet? : DocDict → String → Option ScoredDoc
  | [], _ => none
  | (k, v) :: rest, key => if k = key then some v else dictGet? rest key

/-- Dictionary update `d[k] = v` (CPython: existing key keeps its position,
new key appended). -/
def dictSet : DocDict → String → ScoredDoc → DocDict
  | [], key, v => [(key, v)]
  | (k, w) :: rest, key, v =>
      if k = key then (k, v) :: rest else (k, w) :: dictSet rest key v

/-- The keys of the dict, in insertion order. -/
def dictKeys (d : DocDict) : List String := d.map Prod.fst

/-- `all_docs.values()`, in insertion order. -/
def dictValues (d : DocDict) : List ScoredDoc := d.map Prod.snd

/-- The body of the first loop of `_prioritize_documents`
(content_processor.py lines 149-150): every recent document is stored with
score 1 and sources [recent] (overwriting any earlier entry). -/
def recentStep (d : DocDict) (doc : Doc) : DocDict :=
  dictSet d doc.id { doc := doc, priority_score := 1, sources := ["recent"] }

/-- The body of the second loop (lines 153-158): a document already present
gains +2 and the shared tag; otherwise it is stored with score 2. -/
def sharedStep (d : DocDict) (doc : Doc) : DocDict :=
  match dictGet? d doc.id with
  | some entry =>
      dictSet d doc.id
        { doc := entry.doc, priority_score := entry.priority_score + 2
          sources := entry.sources ++ ["shared"] }
  | none =>
      dictSet d doc.id { doc := doc, priority_score := 2, sources := ["shared"] }

/-- `ContentProcessor._extract_doc_id_from_url` (lines 179-186). -/
def extract_doc_id_from_url (url : String) : Option String :=
  if pyContains url "/document/d/" then
    some ((((url.splitOn "/document/d/").getD 1 "").splitOn "/").headD "")
  else none

/-- The body of the attachment loop (lines 162-168): a document id extracted
from a Google-Docs attachment URL boosts an EXISTING entry by +3 (the guard
`if doc_id and doc_id in all_docs` also requires a non-empty id); an id
absent from the dict changes nothing. -/
def attachStep (d : DocDict) (attachment : Attachment) : DocDict :=
  if pyContains attachment.fileUrl "docs.google.com" then
    match extract_doc_id_from_url attachment.fileUrl with
    | some doc_id =>
        if doc_id ≠ "" then
          match dictGet? d doc_id with
          | some entry =>
              dictSet d doc_id
                { doc := entry.doc, priority_score := entry.priority_score + 3
                  sources := entry.sources ++ ["calendar_attachment"] }
          | none => d
        else d
    | none => d
  else d

/-- The nested attachment loop of lines 161-168. -/
def boost_calendar_attachments (d : DocDict) (calendar_events : List Event) : DocDict :=
  calendar_events.foldl (fun acc ev => ev.attachments.foldl attachStep acc) d

/-- The ordering of the final `sorted(..., key=lambda x:
(x.priority_score, x.modified_time), reverse=True)`: descending
lexicographic on (score, modified time). -/
def docBefore (a b : ScoredDoc) : Prop :=
  b.priority_score < a.priority_score ∨
    (a.priority_score = b.priority_score ∧ b.doc.modified_time ≤ a.doc.modified_time)

instance : DecidableRel docBefore :=
  fun a b => inferInstanceAs (Decidable
    (b.priority_score < a.priority_score ∨
      (a.priority_score = b.priority_score ∧ b.doc.modified_time ≤ a.doc.modified_time)))

/-- The final stable descending sort (lines 171-175). -/
def sortDocs (docs : List ScoredDoc) : List ScoredDoc :=
  List.insertionSort docBefore docs

/-- `ContentProcessor._prioritize_documents` (content_processor.py lines
143-177). -/
def prioritize_documents (recent_docs shared_docs : List Doc)
    (calendar_events : List Event) : List ScoredDoc :=
  let all_docs := recent_docs.foldl recentStep []
  let all_docs := shared_docs.foldl sharedStep all_docs
  let all_docs := boost_calendar_attachments all_docs calendar_events
  sortDocs (dictValues all_docs)

/-- The `users` table row (models.py lines 8-20; token columns not used by
any claim are omitted). -/
structure UserRow where
  id : Nat
  email : String
  rss_feed_url : String
deriving DecidableEq

/-- The `podcast_episodes` table row (models.py lines 22-38).  DateTime
columns are modelled as epoch seconds. -/
structure EpisodeRow where
  id : Nat
  user_id : Nat
  title : String
  description : String
  audio_url : String
  audio_file_path : String
  duration_seconds : Int
  file_size_bytes : Int
  created_at : Int
  published_at : Int
  episode_type : String
  source_data : String
deriving DecidableEq

/-- `settings.audio_base_url` (config.py line 23, default value). -/
def audio_base_url : String := "http://localhost:8000/audio"

/-- `settings.audio_storage_path` (config.py line 22, default value). -/
def audio_storage_path : String := "./audio_files"

/-- Zero-padded two-digit rendering, modelling the f-string 02d format. -/
def pad2 (n : Int) : String := if n < 10 then "0" ++ toString n else toString n

/-- `RSSFeedGenerator._format_duration` (rss_generator.py lines 72-81).
Python // and % on a non-negative int and positive divisor coincide with
Euclidean division. -/
def format_duration (seconds : Int) : String :=
  let hours := Int.ediv seconds 3600
  let minutes := Int.ediv (Int.emod seconds 3600) 60
  let secs := Int.emod seconds 60
  if 0 < hours then pad2 hours ++ ":" ++ pad2 minutes ++ ":" ++ pad2 secs
  else pad2 minutes ++ ":" ++ pad2 secs

/-- One feed entry as `generate_user_feed` builds it (rss_generator.py lines
48-66).  `pub_date` models the published-at instant; the source only
normalizes a timezone-naive datetime to UTC, which is the identity on our
epoch-second model. -/
structure FeedEntry where
  entry_id : String
  title : String
  description : String
  enclosure_url : String
  enclosure_length : String
  enclosure_type : String
  pub_date : Int
  guid : String
  itunes_duration : String
deriving DecidableEq

/-- The entry built for one episode (lines 48-66). -/
def mkEntry (episode : EpisodeRow) : FeedEntry :=
  { entry_id := audio_base_url ++ "/episode/" ++ toString episode.id
    title := episode.title
    description := episode.description
    enclosure_url := episode.audio_url
    enclosure_length := toString episode.file_size_bytes
    enclosure_type := "audio/mpeg"
    pub_date := episode.published_at
    guid := audio_base_url ++ "/episode/" ++ toString episode.id
    itunes_duration := format_duration episode.duration_seconds }

/-- The generated feed: its metadata and its entry list (the XML
serialization by the feedgen library is outside the embedding). -/
structure UserFeed where
  feed_id : String
  title : String
  description : String
  entries : List FeedEntry
deriving DecidableEq

/-- `RSSFeedGenerator.generate_user_feed` (rss_generator.py lines 16-70).
The episode loop `if episode.audio_url:` adds an entry only for a truthy
(non-empty) audio URL. -/
def generate_user_feed (user : UserRow) (episodes : List EpisodeRow) : UserFeed :=
  { feed_id := audio_base_url ++ "/rss/" ++ toString user.id
    -- the possessive apostrophe of the source title is elided
    title := ((user.email.splitOn "@").headD "") ++ "s Daily Podcast"
    description := "Personalized daily podcast for " ++ user.email
    entries :=
      episodes.foldl
        (fun acc episode =>
          if episode.audio_url ≠ "" then acc ++ [mkEntry episode] else acc) [] }

/-- The dictionary `GoogleDocsService.get_document_content` returns
(google_services.py lines 361-367); `word_count`/`char_count` are computed
there from the fetched text. -/
structure DocContent where
  id : String
  title : String
  content : String
  word_count : Nat
  char_count : Nat
deriving DecidableEq

/-- A per-document detail record of
`ContentProcessor._process_individual_documents` (content_processor.py
lines 234-255). -/
structure ProcessedDoc where
  id : String
  name : String
  modified_time : Int
  web_link : String
  content_preview : String
  word_count : Nat
  priority_score : Int
  sources : List String
deriving DecidableEq

/-- The preview of fetched content (line 239): the first 500 characters
plus an ellipsis when the content is longer than 500 characters, the whole
content otherwise. -/
def content_preview_of (content : String) : String :=
  if 500 < content.length then pySlice content 500 ++ "..." else content

/-- The record built when content was fetched (lines 234-243). -/
def processedRecord (d : ScoredDoc) (c : DocContent) : ProcessedDoc :=
  { id := d.doc.id, name := d.doc.name, modified_time := d.doc.modified_time
    web_link := d.doc.web_link
    content_preview := content_preview_of c.content
    word_count := c.word_count
    priority_score := d.priority_score, sources := d.sources }

/-- The record built when `get_document_content` returned None (lines
246-255). -/
def placeholderRecord (d : ScoredDoc) : ProcessedDoc :=
  { id := d.doc.id, name := d.doc.name, modified_time := d.doc.modified_time
    web_link := d.doc.web_link
    content_preview := "Document: " ++ d.doc.name ++ " (content not accessible)"
    word_count := 0
    priority_score := d.priority_score, sources := d.sources }

/-- `ContentProcessor._process_individual_documents` (lines 224-260).
`fetch` models `self.docs_service.get_document_content`: `Except.error`
is a raised exception (the `except` clause skips the document),
`Except.ok none` is an API error swallowed inside `get_document_content`
(placeholder record), `Except.ok (some c)` is fetched content. -/
def process_individual_documents (documents : List ScoredDoc)
    (fetch : String → Except String (Option DocContent)) : List ProcessedDoc :=
  documents.foldl
    (fun acc d =>
      match fetch d.doc.id with
      | .error _ => acc
      | .ok (some c) => acc ++ [processedRecord d c]
      | .ok none => acc ++ [placeholderRecord d])
    []

/-- A `generation_logs` table row (models.py lines 40-51); `user_id` and
the started-at timestamp play no role in any claim.  `completed_at_set`
records whether the nullable `completed_at` column was filled. -/
structure GenLog where
  status : String
  error_message : Option String
  episodes_generated : Nat
  completed_at_set : Bool
deriving DecidableEq

/-- `GenerationLogCRUD.create_log` (crud.py lines 124-134): a fresh row
with status pending. -/
def create_log : GenLog :=
  { status := "pending", error_message := none, episodes_generated := 0
    completed_at_set := false }

/-- `GenerationLogCRUD.update_log_status` (crud.py lines 137-150): the
error message is stored only when truthy (non-None and non-empty);
`episodes_generated` is always assigned (its keyword default is 0);
`completed_at` is stamped on the terminal statuses. -/
def update_log_status (log : GenLog) (status : String)
    (error_message : Option String) (episodes_generated : Nat) : GenLog :=
  { status := status
    error_message :=
      match error_message with
      | some m => if m = "" then log.error_message else some m
      | none => log.error_message
    episodes_generated := episodes_generated
    completed_at_set :=
      if status = "completed" ∨ status = "failed" then true else log.completed_at_set }

/-- `PodcastCRUD.update_episode_audio` (crud.py lines 108-120): find the
first row with the given id, assign exactly the four audio columns, return
the updated table and the row the function returns (None when no row
matched). -/
def update_episode_audio : List EpisodeRow → Nat → String → String → Int → Int →
    List EpisodeRow × Option EpisodeRow
  | [], _, _, _, _, _ => ([], none)
  | ep :: rest, episode_id, audio_url, audio_file_path, duration_seconds, file_size_bytes =>
      if ep.id = episode_id then
        let updated :=
          { ep with audio_url := audio_url, audio_file_path := audio_file_path
                    duration_seconds := duration_seconds, file_size_bytes := file_size_bytes }
        (updated :: rest, some updated)
      else
        let r := update_episode_audio rest episode_id audio_url audio_file_path
          duration_seconds file_size_bytes
        (ep :: r.1, r.2)

/-- The `calendar_summary` fields the script generator reads
(podcast_generator.py lines 55-80, 195-205). -/
structure CalendarSummaryData where
  total_events : Nat
  busy_hours : ℚ
  meeting_density : String
  summary : String
  key_highlights : List String
  meeting_details : List MeetingDetail
deriving DecidableEq

/-- The `documents_summary` fields the script generator reads. -/
structure DocumentsSummaryData where
  total_documents : Nat
  summary : String
deriving DecidableEq

/-- The daily-content aggregate handed to the script generator
(`ContentProcessor.generate_daily_content` output; the raw-data payload is
not read by the generator). -/
structure DailyContent where
  date : String
  calendar_summary : CalendarSummaryData
  documents_summary : DocumentsSummaryData
  individual_documents : List ProcessedDoc
deriving DecidableEq

/-- Model of `strftime` long-date rendering of the ISO date string
(identity on our string model; the exact text matters to no claim). -/
def fmtDateLong (iso_date : String) : String := iso_date

/-- Model of `strftime` Y-m-d rendering of the ISO date string. -/
def fmtDateShort (iso_date : String) : String := iso_date

/-- `PodcastScriptGenerator._format_documents_for_prompt` (lines 157-166). -/
def format_documents_for_prompt (documents : List ProcessedDoc) : String :=
  if documents.isEmpty then "No documents to review."
  else
    String.intercalate (String.mk [Char.ofNat 10])
      (documents.map (fun doc =>
        "- " ++ doc.name ++ ": " ++ pySlice doc.content_preview 100 ++ "..."))

/-- `PodcastScriptGenerator._format_meetings_for_prompt` (lines 168-177). -/
def format_meetings_for_prompt (meetings : List MeetingDetail) : String :=
  if meetings.isEmpty then "No meetings scheduled."
  else
    String.intercalate (String.mk [Char.ofNat 10])
      (meetings.map (fun meeting =>
        "- " ++ meeting.time ++ ": " ++ meeting.title ++ " (" ++ meeting.duration ++ ")"))

/-- The structured daily prompt (lines 62-99); the fixed instructional
prose around the data lines is abbreviated, the interpolated data is the
same. -/
def dailyPrompt (daily_content : DailyContent) : String :=
  let cal := daily_content.calendar_summary
  let docs := daily_content.documents_summary
  "Create a personalized daily podcast script for " ++
    fmtDateLong daily_content.date ++
    ". CALENDAR INFORMATION: Total events: " ++ toString cal.total_events ++
    " Busy hours: " ++ fmt1 cal.busy_hours ++
    " Meeting density: " ++ cal.meeting_density ++
    " Summary: " ++ cal.summary ++
    " Key highlights: " ++ String.intercalate ", " cal.key_highlights ++
    " DOCUMENT INFORMATION: Total documents: " ++ toString docs.total_documents ++
    " Document summary: " ++ docs.summary ++
    " TOP DOCUMENTS TO MENTION: " ++
    format_documents_for_prompt (daily_content.individual_documents.take 3) ++
    " DETAILED MEETING SCHEDULE: " ++
    format_meetings_for_prompt cal.meeting_details

/-- The welcome prompt (lines 18-32), abbreviated the same way. -/
def welcomePrompt (user_email : String) : String :=
  "Create a warm, friendly welcome script for a new user of Podbot. User email: " ++
    user_email

/-- `PodcastScriptGenerator._fallback_welcome_script` (lines 179-193): a
fixed local template (its `user_email` parameter is unused in the source
too); apostrophes of the narration are elided. -/
def fallback_welcome_script (_user_email : String) : String :=
  "Welcome to Podbot! I am excited to have you on board. " ++
  "Podbot is your personal podcast service that transforms your busy schedule " ++
  "into something meaningful. Every morning, I will create a personalized podcast " ++
  "just for you, summarizing your day ahead and highlighting the important " ++
  "documents that have been shared with you. " ++
  "Your first real podcast will be generated tomorrow morning, giving you a head " ++
  "start on your day. Think of it as having a personal assistant who has already " ++
  "read through everything and is ready to brief you on what matters most. " ++
  "Thanks for joining Podbot, and I look forward to helping you stay organized " ++
  "and informed!"

/-- `PodcastScriptGenerator._fallback_daily_script` (lines 195-205): a
deterministic template over the date, the event count and the document
count of the input aggregate. -/
def fallback_daily_script (daily_content : DailyContent) : String :=
  "Good morning! Here is your daily briefing for " ++
    fmtDateLong daily_content.date ++ ". " ++
  "Today you have " ++ toString daily_content.calendar_summary.total_events ++
    " events scheduled, and " ++
    toString daily_content.documents_summary.total_documents ++
    " documents to review. Have a great day!"

/-- `PodcastScriptGenerator.generate_welcome_script` (lines 16-49).  `llm`
models one `chat.completions.create` call on the built prompt; on success
the text is stripped and returned, on ANY exception the local fallback is
returned through the same success path (no retry, no error to the
caller). -/
def generate_welcome_script (llm : String → Except String String)
    (user_email : String) : String :=
  match llm (welcomePrompt user_email) with
  | .ok text => pyStrip text
  | .error _ => fallback_welcome_script user_email

/-- `PodcastScriptGenerator.generate_daily_podcast_script` (lines 51-116):
same shape as the welcome case, with the daily fallback. -/
def generate_daily_podcast_script (llm : String → Except String String)
    (daily_content : DailyContent) : String :=
  match llm (dailyPrompt daily_content) with
  | .ok text => pyStrip text
  | .error _ => fallback_daily_script daily_content

/-- The audio-info dictionary `generate_audio_from_script` returns (lines
236-241). -/
structure AudioInfo where
  file_path : String
  file_size : Nat
  duration_seconds : Nat
  audio_url : String
deriving DecidableEq

/-- Python `script.split()`: split on whitespace runs, dropping empties. -/
def pyWords (s : String) : List String :=
  (s.split Char.isWhitespace).filter (fun w => w ≠ "")

/-- `PodcastAudioGenerator.generate_audio_from_script` (lines 213-245).
`tts` models the speech call plus file write, returning the byte size of
the stored file; ANY exception is logged and RE-RAISED (`Except.error`
propagates — no fallback audio).  The duration estimate
`int((word_count / 150) * 60)` is word count scaled by the assumed 150
words per minute. -/
def generate_audio_from_script (tts : String → String → Except String Nat)
    (script filename voice : String) : Except String AudioInfo :=
  match tts script voice with
  | .error e => .error e
  | .ok file_size =>
      let word_count := (pyWords script).length
      .ok { file_path := audio_storage_path ++ "/" ++ filename ++ ".mp3"
            file_size := file_size
            duration_seconds := word_count * 60 / 150
            audio_url := audio_base_url ++ "/" ++ filename ++ ".mp3" }

/-- The dictionary `PodcastGenerationService.generate_daily_podcast`
returns (lines 298-305).  The serialized `source_data` snapshot is
modelled as the aggregate value itself. -/
structure DailyPodcastData where
  script : String
  audio_info : AudioInfo
  episode_type : String
  title : String
  description : String
  source_data : DailyContent
deriving DecidableEq

/-- `PodcastGenerationService.generate_daily_podcast` (lines 285-305):
script generation (with its internal fallback), then audio generation
whose failure propagates to the caller. -/
def generate_daily_podcast (llm : String → Except String String)
    (tts : String → String → Except String Nat)
    (user_id : Nat) (daily_content : DailyContent) : Except String DailyPodcastData :=
  let date_str := fmtDateShort daily_content.date
  let script := generate_daily_podcast_script llm daily_content
  match generate_audio_from_script tts script
      ("daily_" ++ toString user_id ++ "_" ++ date_str) "alloy" with
  | .error e => .error e
  | .ok audio_info =>
      .ok { script := script, audio_info := audio_info, episode_type := "daily"
            title := "Daily Briefing - " ++ fmtDateLong daily_content.date
            description := "Your personalized daily podcast for " ++
              fmtDateLong daily_content.date
            source_data := daily_content }

/-- An observable step of `PodcastPipeline.generate_daily_podcast_for_user`:
a generation-log write or a call out to an external service. -/
inductive PipeEv where
  | logCreate (status : String)
  | logUpdate (status : String)
  | externalCall (label : String)
deriving DecidableEq

/-- The log status carried by a log event, if any. -/
def PipeEv.logStatus : PipeEv → Option String
  | .logCreate s => some s
  | .logUpdate s => some s
  | .externalCall _ => none

/-- What a daily-generation request leaves behind: the ordered events it
performed, the final state of its generation-log row, and the value it
returns (the generated episode payload, None on failure). -/
structure PipeResult where
  events : List PipeEv
  log : Option GenLog
  result : Option DailyPodcastData
deriving DecidableEq

/-- `PodcastPipeline.generate_daily_podcast_for_user` (podcast_pipeline.py
lines 60-130).  `fetch_content` models the Google fetches of
`ContentProcessor.generate_daily_content`; `gen_podcast` models
`podcast_service.generate_daily_podcast` (script + audio).  For an unknown
user the function returns None before creating any log.  Otherwise a log
row is created pending, advanced to processing before the first external
call, and the inner `except` finalizes it failed (the re-raise is caught
by the outer handler, which returns None); on success it is finalized
completed with one episode.  Episode persistence (create + audio update,
modelled row-level by `update_episode_audio`) raises nothing here. -/
def generate_daily_podcast_for_user (user_exists : Bool)
    (fetch_content : Except String DailyContent)
    (gen_podcast : DailyContent → Except String DailyPodcastData) : PipeResult :=
  if !user_exists then { events := [], log := none, result := none }
  else
    let log := create_log
    let log := update_log_status log "processing" none 0
    let evs : List PipeEv := [.logCreate "pending", .logUpdate "processing"]
    match fetch_content with
    | .error e =>
        { events := evs ++ [.externalCall "google_content", .logUpdate "failed"]
          log := some (update_log_status log "failed" (some e) 0)
          result := none }
    | .ok daily_content =>
        match gen_podcast daily_content with
        | .error e =>
            { events := evs ++ [.externalCall "google_content",
                .externalCall "podcast_generation", .logUpdate "failed"]
              log := some (update_log_status log "failed" (some e) 0)
              result := none }
        | .ok podcast_data =>
            { events := evs ++ [.externalCall "google_content",
                .externalCall "podcast_generation", .logUpdate "completed"]
              log := some (update_log_status log "completed" none 1)
              result := some podcast_data }

/-- A loop that appends `g x` for each `x` satisfying `p` is the filtered
map. -/
theorem foldl_if_append {α β : Type} (p : α → Prop) [DecidablePred p] (g : α → β)
    (l : List α) : ∀ acc : List β,
    l.foldl (fun a x => if p x then a ++ [g x] else a) acc =
      acc ++ (l.filter (fun x => decide (p x))).map g := by
  induction l with
  | nil => intro acc; simp
  | cons x t ih =>
      intro acc
      by_cases hp : p x
      · simp [hp, ih, List.filter_cons]
      · simp [hp, ih, List.filter_cons]

/-- A loop that increments for each `x` satisfying `p` counts `p`. -/
theorem foldl_if_count {α : Type} (p : α → Prop) [DecidablePred p]
    (l : List α) : ∀ n : Nat,
    l.foldl (fun a x => if p x then a + 1 else a) n =
      n + l.countP (fun x => decide (p x)) := by
  induction l with
  | nil => intro n; simp
  | cons x t ih =>
      intro n
      by_cases hp : p x
      · simp [hp, ih, List.countP_cons]; omega
      · simp [hp, ih, List.countP_cons]

/-- The free-time-block loop of `analyze_day_schedule`, characterized: one
block per adjacent sorted pair whose gap exceeds 30 minutes. -/
theorem analyze_free_blocks_eq (events : List Event) :
    (analyze_day_schedule events).free_time_blocks =
      (((sortEvents events).zip (sortEvents events).tail).filter
        (fun p => decide (gapMinutes p > 30))).map mkFreeBlock := by
  unfold analyze_day_schedule
  by_cases he : events.isEmpty
  · have : events = [] := List.isEmpty_iff.mp he
    subst this
    simp [sortEvents, List.insertionSort]
  · simp only [he, Bool.false_eq_true, if_false]
    exact foldl_if_append (fun p => gapMinutes p > 30) mkFreeBlock _ []

/-- The back-to-back loop of `analyze_day_schedule`, characterized: one
count per adjacent sorted pair whose gap is at most 15 minutes. -/
theorem analyze_back_to_back_eq (events : List Event) :
    (analyze_day_schedule events).back_to_back_meetings =
      ((sortEvents events).zip (sortEvents events).tail).countP
        (fun p => decide (gapMinutes p ≤ 15)) := by
  unfold analyze_day_schedule
  by_cases he : events.isEmpty
  · have : events = [] := List.isEmpty_iff.mp he
    subst this
    simp [sortEvents, List.insertionSort]
  · simp only [he, Bool.false_eq_true, if_false]
    simpa using foldl_if_count (fun p => gapMinutes p ≤ 15) _ 0

/-- A one-hour meeting starting at epoch second 0. -/
def evA : Event :=
  { id := "a", title := "A", description := "", start_time := 0, end_time := 3600
    is_all_day := false, location := "", attendees := [], attachments := [] }

/-- A meeting starting exactly 30 minutes after `evA` ends. -/
def evB30 : Event :=
  { id := "b30", title := "B30", description := "", start_time := 5400, end_time := 9000
    is_all_day := false, location := "", attendees := [], attachments := [] }

/-- A meeting starting exactly 15 minutes after `evA` ends. -/
def evB15 : Event :=
  { id := "b15", title := "B15", description := "", start_time := 4500, end_time := 8100
    is_all_day := false, location := "", attendees := [], attachments := [] }

/-- A meeting starting 20 minutes after `evA` ends (between the two
boundaries). -/
def evB20 : Event :=
  { id := "b20", title := "B20", description := "", start_time := 4800, end_time := 8400
    is_all_day := false, location := "", attendees := [], attachments := [] }

/-- Claim C2: over every event list, walking the sorted adjacent pairs, the
analyzer records a free-time block exactly for the pairs whose gap exceeds
30 minutes and counts as back-to-back exactly the pairs whose gap is at
most 15 minutes; at the boundaries, a 30-minute gap yields no free block
(and is not back-to-back), a 15-minute gap is back-to-back (and yields no
free block), and a 20-minute gap counts toward neither. -/
theorem schedule_gap_boundaries :
    (∀ events : List Event,
      (analyze_day_schedule events).free_time_blocks =
        (((sortEvents events).zip (sortEvents events).tail).filter
          (fun p => decide (gapMinutes p > 30))).map mkFreeBlock ∧
      (analyze_day_schedule events).back_to_back_meetings =
        ((sortEvents events).zip (sortEvents events).tail).countP
          (fun p => decide (gapMinutes p ≤ 15))) ∧
    (analyze_day_schedule [evA, evB30]).free_time_blocks = [] ∧
    (analyze_day_schedule [evA, evB30]).back_to_back_meetings = 0 ∧
    (analyze_day_schedule [evA, evB15]).free_time_blocks = [] ∧
    (analyze_day_schedule [evA, evB15]).back_to_back_meetings = 1 ∧
    (analyze_day_schedule [evA, evB20]).free_time_blocks = [] ∧
    (analyze_day_schedule [evA, evB20]).back_to_back_meetings = 0 := by
  have hs30 : sortEvents [evA, evB30] = [evA, evB30] := by
    simp [sortEvents, List.insertionSort, List.orderedInsert, eventBefore, evA, evB30]
  have hs15 : sortEvents [evA, evB15] = [evA, evB15] := by
    simp [sortEvents, List.insertionSort, List.orderedInsert, eventBefore, evA, evB15]
  have hs20 : sortEvents [evA, evB20] = [evA, evB20] := by
    simp [sortEvents, List.insertionSort, List.orderedInsert, eventBefore, evA, evB20]
  refine ⟨fun events => ⟨analyze_free_blocks_eq events, analyze_back_to_back_eq events⟩,
    ?_, ?_, ?_, ?_, ?_, ?_⟩
  · rw [analyze_free_blocks_eq, hs30]
    norm_num [List.filter, gapMinutes, evA, evB30]
  · rw [analyze_back_to_back_eq, hs30]
    norm_num [List.countP, List.countP.go, gapMinutes, evA, evB30]
  · rw [analyze_free_blocks_eq, hs15]
    norm_num [List.filter, gapMinutes, evA, evB15]
  · rw [analyze_back_to_back_eq, hs15]
    norm_num [List.countP, List.countP.go, gapMinutes, evA, evB15]
  · rw [analyze_free_blocks_eq, hs20]
    norm_num [List.filter, gapMinutes, evA, evB20]
  · rw [analyze_back_to_back_eq, hs20]
    norm_num [List.countP, List.countP.go, gapMinutes, evA, evB20]

/-- No two events of the list overlap in time. -/
def nonOverlapping : List Event → Bool
  | [] => true
  | e :: rest =>
      rest.all (fun f => e.end_time ≤ f.start_time || f.end_time ≤ e.start_time) &&
        nonOverlapping rest

/-- Claim C9: for every list of events with no overlaps, `total_events` is
the length of the list and `busy_hours` is the sum of (end - start) in
hours over the non-all-day events, rounded to one decimal place (summed
over the input order; the internal sort is a permutation). -/
theorem analyzer_totals (events : List Event)
    (h : nonOverlapping events = true) :
    (analyze_day_schedule events).total_events = events.length ∧
    (analyze_day_schedule events).busy_hours =
      pyRound1 (((events.filter (fun e => !e.is_all_day)).map
        (fun e => ((e.end_time - e.start_time : ℤ) : ℚ) / 3600)).sum) := by
  clear h
  by_cases he : events.isEmpty
  · have : events = [] := List.isEmpty_iff.mp he
    subst this
    constructor
    · rfl
    · show (0 : ℚ) = pyRound1 0
      norm_num [pyRound1]
  · have hperm : (sortEvents events).Perm events :=
      List.perm_insertionSort eventBefore events
    unfold analyze_day_schedule
    simp only [he, Bool.false_eq_true, if_false]
    refine ⟨hperm.length_eq, ?_⟩
    have hsum :
        (((sortEvents events).filter (fun e => !e.is_all_day)).map
          (fun e => ((e.end_time - e.start_time : ℤ) : ℚ) / 3600)).sum =
        ((events.filter (fun e => !e.is_all_day)).map
          (fun e => ((e.end_time - e.start_time : ℤ) : ℚ) / 3600)).sum :=
      ((hperm.filter (fun e => !e.is_all_day)).map
        (fun e => ((e.end_time - e.start_time : ℤ) : ℚ) / 3600)).sum_eq
    rw [hsum]

/-- A second meeting, 7200..9000, not overlapping `evA`. -/
def evD : Event :=
  { id := "d", title := "D", description := "", start_time := 7200, end_time := 9000
    is_all_day := false, location := "", attendees := [], attachments := [] }

/-- Witness for C9 at the concrete two-event day [evA, evD]. -/
theorem analyzer_totals_witness :
    nonOverlapping [evA, evD] = true ∧
    ((analyze_day_schedule [evA, evD]).total_events = [evA, evD].length ∧
     (analyze_day_schedule [evA, evD]).busy_hours =
       pyRound1 ((([evA, evD].filter (fun e => !e.is_all_day)).map
         (fun e => ((e.end_time - e.start_time : ℤ) : ℚ) / 3600)).sum)) :=
  ⟨by decide, analyzer_totals [evA, evD] (by decide)⟩

/-- A three-hour meeting (longer than 2 hours). -/
def evLong : Event :=
  { id := "e1", title := "Planning", description := "", start_time := 0
    end_time := 10800, is_all_day := false, location := ""
    attendees := [], attachments := [] }

/-- A one-hour meeting (shorter than 2 hours). -/
def evShort : Event :=
  { id := "e2", title := "Standup", description := "", start_time := 0
    end_time := 3600, is_all_day := false, location := ""
    attendees := [], attachments := [] }

/-- Claim C1 (code bug): for EVERY non-empty event list,
`_create_calendar_summary` does not return normally: `analyze_day_schedule`
stores the longest meetings start/end as isoformat strings, and line 94
subtracts those two strings, raising TypeError — both when the longest
meeting exceeds 2 hours (`evLong`) and when it does not (`evShort`), before
the 2-hour comparison is ever reached. -/
theorem calendar_summary_raises :
    create_calendar_summary [evLong] (analyze_day_schedule [evLong]) =
      Except.error "TypeError: unsupported operand types for -: str and str" ∧
    create_calendar_summary [evShort] (analyze_day_schedule [evShort]) =
      Except.error "TypeError: unsupported operand types for -: str and str" ∧
    ∀ events : List Event, events ≠ [] →
      create_calendar_summary events (analyze_day_schedule events) =
        Except.error "TypeError: unsupported operand types for -: str and str" := by
  have hgen : ∀ events : List Event, events ≠ [] →
      create_calendar_summary events (analyze_day_schedule events) =
        Except.error "TypeError: unsupported operand types for -: str and str" := by
    intro events hne
    have he : events.isEmpty = false := by
      cases events with
      | nil => exact absurd rfl hne
      | cons a t => rfl
    have hsne : sortEvents events ≠ [] := by
      intro hnil
      have := (List.perm_insertionSort eventBefore events).length_eq
      rw [show List.insertionSort eventBefore events = sortEvents events from rfl,
        hnil] at this
      exact hne (List.length_eq_zero.mp this.symm)
    obtain ⟨a, t, hst⟩ := List.exists_cons_of_ne_nil hsne
    have hlm : ∃ lm, (analyze_day_schedule events).longest_meeting = some lm := by
      unfold analyze_day_schedule
      simp only [he, Bool.false_eq_true, if_false]
      rw [hst]
      exact ⟨_, rfl⟩
    obtain ⟨lm, hlm⟩ := hlm
    unfold create_calendar_summary
    simp only [he, Bool.false_eq_true, if_false, hlm]
  exact ⟨hgen [evLong] (by decide), hgen [evShort] (by decide), hgen⟩

/-- Claim C5: the generated feed has one entry per episode with a truthy
(non-empty) audio URL, in order, and an episode with empty `audio_url`
never appears in it. -/
theorem feed_entries_iff :
    (∀ (user : UserRow) (episodes : List EpisodeRow),
      (generate_user_feed user episodes).entries =
        (episodes.filter (fun e => decide (e.audio_url ≠ ""))).map mkEntry) ∧
    (∀ (user : UserRow) (episodes : List EpisodeRow) (ep : EpisodeRow),
      ep.audio_url = "" → mkEntry ep ∉ (generate_user_feed user episodes).entries) := by
  have hchar : ∀ (user : UserRow) (episodes : List EpisodeRow),
      (generate_user_feed user episodes).entries =
        (episodes.filter (fun e => decide (e.audio_url ≠ ""))).map mkEntry := by
    intro user episodes
    show episodes.foldl
        (fun acc episode => if episode.audio_url ≠ "" then acc ++ [mkEntry episode] else acc) [] = _
    simpa using foldl_if_append (fun e : EpisodeRow => e.audio_url ≠ "") mkEntry episodes []
  refine ⟨hchar, ?_⟩
  intro user episodes ep hurl hmem
  rw [hchar] at hmem
  obtain ⟨ep2, hep2, heq⟩ := List.mem_map.mp hmem
  obtain ⟨_, hne⟩ := List.mem_filter.mp hep2
  have : ep2.audio_url = ep.audio_url := congrArg FeedEntry.enclosure_url heq
  rw [hurl] at this
  simp [this] at hne

/-- Claim C6 (amended): for every document record built from fetched
content, the preview is at most 503 characters long — the whole content
when it is at most 500 characters, and exactly the first 500 characters
followed by a three-character ellipsis (503 in total) when it is longer. -/
theorem preview_cap_503 :
    ∀ (d : ScoredDoc) (c : DocContent),
      (processedRecord d c).content_preview.length ≤ 503 ∧
      (500 < c.content.length → (processedRecord d c).content_preview.length = 503) := by
  intro d c
  have hproj : (processedRecord d c).content_preview = content_preview_of c.content := rfl
  by_cases h : 500 < c.content.length
  · have hlen : (content_preview_of c.content).length = 503 := by
      unfold content_preview_of
      rw [if_pos h, String.length_append]
      have h1 : (pySlice c.content 500).length = min 500 c.content.length := by
        show (c.content.data.take 500).length = _
        rw [List.length_take]
        rfl
      rw [h1]
      have h2 : min 500 c.content.length = 500 := by omega
      rw [h2]
      rfl
    refine ⟨?_, fun _ => by rw [hproj, hlen]⟩
    rw [hproj, hlen]
  · have hpre : content_preview_of c.content = c.content := by
      unfold content_preview_of
      rw [if_neg h]
    refine ⟨?_, fun hc => absurd hc h⟩
    rw [hproj, hpre]
    omega

/-- 501 copies of the letter a. -/
def contentC6 : String := String.mk (List.replicate 501 (Char.ofNat 97))

/-- A concrete prioritized document. -/
def docC6 : ScoredDoc :=
  { doc := { id := "doc1", name := "Doc One", modified_time := 0, web_link := "link1" }
    priority_score := 1, sources := ["recent"] }

/-- Fetched content of 501 characters for that document. -/
def contentRecC6 : DocContent :=
  { id := "doc1", title := "Doc One", content := contentC6
    word_count := 1, char_count := 501 }

/-- A fetcher that returns that content. -/
def fetchC6 : String → Except String (Option DocContent) :=
  fun _ => .ok (some contentRecC6)

/-- Counterexample to claim C6 as stated: for 501-character fetched content
the preview is 503 characters (the first 500 plus an ellipsis), so it is
NOT capped at 500. -/
theorem preview_cap_counterexample :
    ¬ (∀ r ∈ process_individual_documents [docC6] fetchC6,
        r.content_preview.length ≤ 500) := by
  intro h
  have hmem : processedRecord docC6 contentRecC6 ∈
      process_individual_documents [docC6] fetchC6 := by
    show _ ∈ [processedRecord docC6 contentRecC6]
    exact List.mem_singleton.mpr rfl
  have hlen : (processedRecord docC6 contentRecC6).content_preview.length = 503 := by
    have : (500 : Nat) < contentRecC6.content.length := by
      show 500 < (List.replicate 501 (Char.ofNat 97)).length
      rw [List.length_replicate]
      omega
    exact (preview_cap_503 docC6 contentRecC6).2 this
  have := h _ hmem
  omega

/-- Claim C10: `update_episode_audio` assigns exactly the four audio
columns of the first row matching the id; every other column of that row
(user id, title, description, episode type, source data, created-at,
published-at) keeps its value, and the returned row is that update. -/
theorem update_episode_audio_frame
    (db : List EpisodeRow) (episode_id : Nat) (audio_url audio_file_path : String)
    (duration_seconds file_size_bytes : Int) (ep2 : EpisodeRow)
    (hfound : (update_episode_audio db episode_id audio_url audio_file_path
        duration_seconds file_size_bytes).2 = some ep2) :
    ∃ ep, ep ∈ db ∧ ep.id = episode_id ∧
      ep2 = { ep with audio_url := audio_url, audio_file_path := audio_file_path,
                      duration_seconds := duration_seconds,
                      file_size_bytes := file_size_bytes } ∧
      ep2.user_id = ep.user_id ∧ ep2.title = ep.title ∧
      ep2.description = ep.description ∧ ep2.episode_type = ep.episode_type ∧
      ep2.source_data = ep.source_data ∧ ep2.created_at = ep.created_at ∧
      ep2.published_at = ep.published_at ∧ ep2.audio_url = audio_url ∧
      ep2.audio_file_path = audio_file_path ∧
      ep2.duration_seconds = duration_seconds ∧
      ep2.file_size_bytes = file_size_bytes := by
  induction db with
  | nil => exact absurd hfound (by simp [update_episode_audio])
  | cons ep rest ih =>
      by_cases hid : ep.id = episode_id
      · have : some ({ ep with audio_url := audio_url,
                               audio_file_path := audio_file_path,
                               duration_seconds := duration_seconds,
                               file_size_bytes := file_size_bytes }) =
            some ep2 := by
          rw [← hfound]
          simp [update_episode_audio, hid]
        obtain rfl := (Option.some_inj.mp this).symm
        exact ⟨ep, List.mem_cons_self ep rest, hid, rfl, rfl, rfl, rfl, rfl, rfl, rfl,
          rfl, rfl, rfl, rfl, rfl⟩
      · have hrest : (update_episode_audio rest episode_id audio_url audio_file_path
            duration_seconds file_size_bytes).2 = some ep2 := by
          rw [← hfound]
          simp [update_episode_audio, hid]
        obtain ⟨ep3, hmem, hrest2⟩ := ih hrest
        exact ⟨ep3, List.mem_cons_of_mem ep hmem, hrest2⟩

/-- A concrete placeholder episode row. -/
def epRow1 : EpisodeRow :=
  { id := 7, user_id := 3, title := "Daily Briefing", description := "desc"
    audio_url := "", audio_file_path := "", duration_seconds := 0
    file_size_bytes := 0, created_at := 100, published_at := 100
    episode_type := "daily", source_data := "data" }

/-- `epRow1` with the four audio columns filled. -/
def epRow1Upd : EpisodeRow :=
  { epRow1 with audio_url := "http://a/7.mp3",
                audio_file_path := "./audio_files/7.mp3",
                duration_seconds := 120, file_size_bytes := 2048 }

/-- Witness for C10 at a concrete one-row table. -/
theorem update_episode_audio_frame_witness :
    ∃ ep, ep ∈ [epRow1] ∧ ep.id = 7 ∧
      epRow1Upd = { ep with audio_url := "http://a/7.mp3",
                            audio_file_path := "./audio_files/7.mp3",
                            duration_seconds := 120, file_size_bytes := 2048 } ∧
      epRow1Upd.user_id = ep.user_id ∧ epRow1Upd.title = ep.title ∧
      epRow1Upd.description = ep.description ∧ epRow1Upd.episode_type = ep.episode_type ∧
      epRow1Upd.source_data = ep.source_data ∧ epRow1Upd.created_at = ep.created_at ∧
      epRow1Upd.published_at = ep.published_at ∧ epRow1Upd.audio_url = "http://a/7.mp3" ∧
      epRow1Upd.audio_file_path = "./audio_files/7.mp3" ∧
      epRow1Upd.duration_seconds = 120 ∧
      epRow1Upd.file_size_bytes = 2048 :=
  update_episode_audio_frame [epRow1] 7 "http://a/7.mp3" "./audio_files/7.mp3"
    120 2048 epRow1Upd (by decide)

/-- Claim C8: a failing language-generation call is masked by the local
deterministic fallback, returned through the same success path as a
generated script and built only from the input aggregate (no retry); a
successful call returns the stripped completion; a failing
speech-synthesis call propagates as an error (no fallback audio); and the
whole daily generation succeeds with the fallback script when only the
language call fails. -/
theorem script_fallback_audio_fatal :
    (∀ (daily_content : DailyContent) (e : String),
      generate_daily_podcast_script (fun _ => Except.error e) daily_content =
        fallback_daily_script daily_content) ∧
    (∀ (user_email e : String),
      generate_welcome_script (fun _ => Except.error e) user_email =
        fallback_welcome_script user_email) ∧
    (∀ (llm : String → Except String String) (daily_content : DailyContent) (text : String),
      llm (dailyPrompt daily_content) = Except.ok text →
        generate_daily_podcast_script llm daily_content = pyStrip text) ∧
    (∀ (tts : String → String → Except String Nat) (script filename voice e : String),
      tts script voice = Except.error e →
        generate_audio_from_script tts script filename voice = Except.error e) ∧
    (∀ (user_id : Nat) (daily_content : DailyContent) (e : String) (size : Nat),
      ∃ pd, generate_daily_podcast (fun _ => Except.error e)
          (fun _ _ => Except.ok size) user_id daily_content = Except.ok pd ∧
        pd.script = fallback_daily_script daily_content) := by
  refine ⟨fun _ _ => rfl, fun _ _ => rfl, ?_, ?_, ?_⟩
  · intro llm daily_content text h
    unfold generate_daily_podcast_script
    rw [h]
  · intro tts script filename voice e h
    unfold generate_audio_from_script
    rw [h]
  · intro user_id daily_content e size
    exact ⟨_, rfl, rfl⟩

/-- Claim C7: for an existing user the daily generation log follows
pending then processing (both before any external call) and is finalized
completed (1 episode) on success or failed (captured message, 0 episodes)
on any raise, with the completion timestamp stamped, before the request
returns; the trace carries no status outside the four. -/
theorem generation_log_lifecycle :
    (∀ (fetch_content : Except String DailyContent)
       (gen_podcast : DailyContent → Except String DailyPodcastData),
      (generate_daily_podcast_for_user true fetch_content gen_podcast).events.take 2 =
        [PipeEv.logCreate "pending", PipeEv.logUpdate "processing"]) ∧
    (∀ (fetch_content : Except String DailyContent)
       (gen_podcast : DailyContent → Except String DailyPodcastData)
       (k : Nat) (label : String),
      (generate_daily_podcast_for_user true fetch_content gen_podcast).events.get? k =
          some (PipeEv.externalCall label) → 2 ≤ k) ∧
    (∀ (daily_content : DailyContent)
       (gen_podcast : DailyContent → Except String DailyPodcastData)
       (podcast_data : DailyPodcastData),
      gen_podcast daily_content = Except.ok podcast_data →
      (generate_daily_podcast_for_user true (Except.ok daily_content) gen_podcast).log =
        some { status := "completed", error_message := none, episodes_generated := 1,
               completed_at_set := true }) ∧
    (∀ (message : String)
       (gen_podcast : DailyContent → Except String DailyPodcastData),
      message ≠ "" →
      (generate_daily_podcast_for_user true (Except.error message) gen_podcast).log =
        some { status := "failed", error_message := some message,
               episodes_generated := 0, completed_at_set := true }) ∧
    (∀ (daily_content : DailyContent) (message : String)
       (gen_podcast : DailyContent → Except String DailyPodcastData),
      gen_podcast daily_content = Except.error message → message ≠ "" →
      (generate_daily_podcast_for_user true (Except.ok daily_content) gen_podcast).log =
        some { status := "failed", error_message := some message,
               episodes_generated := 0, completed_at_set := true }) ∧
    (∀ (fetch_content : Except String DailyContent)
       (gen_podcast : DailyContent → Except String DailyPodcastData)
       (s : String),
      s ∈ (generate_daily_podcast_for_user true fetch_content gen_podcast).events.filterMap
          PipeEv.logStatus →
      s = "pending" ∨ s = "processing" ∨ s = "completed" ∨ s = "failed") := by
  refine ⟨?_, ?_, ?_, ?_, ?_, ?_⟩
  · intro fc gp
    cases fc with
    | error e => rfl
    | ok c =>
        cases hgc : gp c with
        | error e => simp [generate_daily_podcast_for_user, hgc]
        | ok pd => simp [generate_daily_podcast_for_user, hgc]
  · intro fc gp k label h
    by_contra hk
    have hk2 : k = 0 ∨ k = 1 := by omega
    cases fc with
    | error e =>
        rcases hk2 with rfl | rfl <;>
          simp [generate_daily_podcast_for_user] at h
    | ok c =>
        cases hgc : gp c with
        | error e =>
            rcases hk2 with rfl | rfl <;>
              simp [generate_daily_podcast_for_user, hgc] at h
        | ok pd =>
            rcases hk2 with rfl | rfl <;>
              simp [generate_daily_podcast_for_user, hgc] at h
  · intro c gp pd hgc
    simp [generate_daily_podcast_for_user, hgc, update_log_status, create_log]
  · intro m gp hm
    simp [generate_daily_podcast_for_user, update_log_status, create_log, hm]
  · intro c m gp hgc hm
    simp [generate_daily_podcast_for_user, hgc, update_log_status, create_log, hm]
  · intro fc gp s hs
    cases fc with
    | error e =>
        simp [generate_daily_podcast_for_user, PipeEv.logStatus] at hs
        rcases hs with rfl | rfl | rfl <;> simp
    | ok c =>
        cases hgc : gp c with
        | error e =>
            simp [generate_daily_podcast_for_user, hgc, PipeEv.logStatus] at hs
            rcases hs with rfl | rfl | rfl <;> simp
        | ok pd =>
            simp [generate_daily_podcast_for_user, hgc, PipeEv.logStatus] at hs
            rcases hs with rfl | rfl | rfl <;> simp

/-- Lookup after update: the updated key reads the new value, every other
key is unchanged. -/
theorem dictGet_dictSet (d : DocDict) (key key2 : String) (v : ScoredDoc) :
    dictGet? (dictSet d key v) key2 =
      if key = key2 then some v else dictGet? d key2 := by
  induction d with
  | nil => simp [dictSet, dictGet?]
  | cons p rest ih =>
      obtain ⟨k1, w⟩ := p
      by_cases h1 : k1 = key
      · subst h1
        by_cases h2 : k1 = key2 <;> simp [dictSet, dictGet?, h2]
      · by_cases h2 : k1 = key2
        · subst h2
          have : key ≠ k1 := fun he => h1 he.symm
          simp [dictSet, dictGet?, h1, this]
        · simp [dictSet, dictGet?, h1, h2, ih]

/-- Key membership after update. -/
theorem mem_dictKeys_dictSet (d : DocDict) (key key2 : String) (v : ScoredDoc) :
    key2 ∈ dictKeys (dictSet d key v) ↔ key2 ∈ dictKeys d ∨ key2 = key := by
  induction d with
  | nil => simp [dictSet, dictKeys]
  | cons p rest ih =>
      obtain ⟨k1, w⟩ := p
      by_cases h1 : k1 = key
      · subst h1
        simp [dictSet, dictKeys]
        tauto
      · simp only [dictSet, if_neg h1, dictKeys, List.map_cons, List.mem_cons]
        rw [show (dictSet rest key v).map Prod.fst = dictKeys (dictSet rest key v) from rfl,
          ih]
        show _ ∨ _ ∨ _ ↔ _
        tauto

/-- Updating an existing key leaves the key list unchanged. -/
theorem dictKeys_dictSet_of_mem (d : DocDict) (key : String) (v : ScoredDoc)
    (h : key ∈ dictKeys d) : dictKeys (dictSet d key v) = dictKeys d := by
  induction d with
  | nil => simp [dictKeys] at h
  | cons p rest ih =>
      obtain ⟨k1, w⟩ := p
      by_cases h1 : k1 = key
      · subst h1
        simp [dictSet, dictKeys]
      · have h2 : key ∈ dictKeys rest := by
          rcases List.mem_cons.mp h with h3 | h3
          · exact absurd h3.symm h1
          · exact h3
        simp only [dictSet, if_neg h1, dictKeys, List.map_cons]
        exact congrArg (List.cons k1) (ih h2)

/-- Adding a fresh key appends it to the key list. -/
theorem dictKeys_dictSet_of_not_mem (d : DocDict) (key : String) (v : ScoredDoc)
    (h : key ∉ dictKeys d) : dictKeys (dictSet d key v) = dictKeys d ++ [key] := by
  induction d with
  | nil => simp [dictSet, dictKeys]
  | cons p rest ih =>
      obtain ⟨k1, w⟩ := p
      have h1 : k1 ≠ key := by
        intro he
        exact h (by simp [dictKeys, he])
      have h2 : key ∉ dictKeys rest := by
        intro he
        exact h (by simp [dictKeys] at he ⊢; exact Or.inr he)
      simp only [dictSet, if_neg h1, dictKeys, List.map_cons, List.cons_append]
      exact congrArg (List.cons k1) (ih h2)

/-- A successful lookup means the key is present. -/
theorem mem_dictKeys_of_get (d : DocDict) (key : String) (v : ScoredDoc)
    (h : dictGet? d key = some v) : key ∈ dictKeys d := by
  induction d with
  | nil => simp [dictGet?] at h
  | cons p rest ih =>
      obtain ⟨k1, w⟩ := p
      by_cases h1 : k1 = key
      · simp [dictKeys, h1]
      · simp only [dictGet?, if_neg h1] at h
        simp [dictKeys] at ih ⊢
        exact Or.inr (ih h)

/-- Well-formedness of the merge dict: every stored value carries the id it
is keyed under, and keys are distinct (dicts cannot repeat a key). -/
def dictWF (d : DocDict) : Prop :=
  (∀ p ∈ d, p.2.doc.id = p.1) ∧ (dictKeys d).Nodup

theorem dictWF_nil : dictWF [] := ⟨by simp, by simp [dictKeys]⟩

theorem dictWF_tail (p : String × ScoredDoc) (rest : DocDict)
    (h : dictWF (p :: rest)) : dictWF rest := by
  refine ⟨fun q hq => h.1 q (List.mem_cons_of_mem p hq), ?_⟩
  have := h.2
  simp [dictKeys] at this ⊢
  exact this.2

/-- The id-keyed invariant survives an update keyed by the new values id. -/
theorem dictSet_pairs (d : DocDict) (key : String) (v : ScoredDoc)
    (hd : ∀ p ∈ d, p.2.doc.id = p.1) (hv : v.doc.id = key) :
    ∀ p ∈ dictSet d key v, p.2.doc.id = p.1 := by
  induction d with
  | nil =>
      intro p hp
      simp [dictSet] at hp
      subst hp
      exact hv
  | cons q rest ih =>
      intro p hp
      obtain ⟨k1, w⟩ := q
      by_cases h1 : k1 = key
      · subst h1
        simp only [dictSet, if_pos rfl] at hp
        rcases List.mem_cons.mp hp with rfl | hp2
        · exact hv
        · exact hd p (List.mem_cons_of_mem _ hp2)
      · simp only [dictSet, if_neg h1] at hp
        rcases List.mem_cons.mp hp with rfl | hp2
        · exact hd (k1, w) (List.mem_cons_self _ _)
        · exact ih (fun q hq => hd q (List.mem_cons_of_mem _ hq)) p hp2

/-- Updating with a value keyed by its own id preserves well-formedness. -/
theorem dictWF_dictSet (d : DocDict) (key : String) (v : ScoredDoc)
    (hwf : dictWF d) (hv : v.doc.id = key) : dictWF (dictSet d key v) := by
  refine ⟨dictSet_pairs d key v hwf.1 hv, ?_⟩
  by_cases h : key ∈ dictKeys d
  · rw [dictKeys_dictSet_of_mem d key v h]
    exact hwf.2
  · rw [dictKeys_dictSet_of_not_mem d key v h]
    simp [List.nodup_append]
    exact ⟨hwf.2, h⟩

/-- In a well-formed dict, every stored pair is found by its key. -/
theorem dictGet_of_mem_wf (d : DocDict) (hwf : dictWF d)
    (p : String × ScoredDoc) (hp : p ∈ d) : dictGet? d p.1 = some p.2 := by
  induction d with
  | nil => simp at hp
  | cons q rest ih =>
      obtain ⟨k1, w⟩ := q
      rcases List.mem_cons.mp hp with rfl | hp2
      · simp [dictGet?]
      · have hk : k1 ≠ p.1 := by
          intro he
          have hnd := hwf.2
          simp [dictKeys] at hnd
          exact hnd.1 p.2 (by rw [he]; exact hp2)
        simp only [dictGet?, if_neg hk]
        exact ih (dictWF_tail _ _ hwf) hp2

/-- In a well-formed dict, a successful lookup returns a value keyed by its
own id. -/
theorem dictGet_wf_id (d : DocDict) (hwf : dictWF d) (key : String) (v : ScoredDoc)
    (h : dictGet? d key = some v) : v.doc.id = key := by
  induction d with
  | nil => simp [dictGet?] at h
  | cons q rest ih =>
      obtain ⟨k1, w⟩ := q
      by_cases h1 : k1 = key
      · simp only [dictGet?, if_pos h1] at h
        obtain rfl := Option.some_inj.mp h
        rw [← h1]
        exact hwf.1 (k1, w) (List.mem_cons_self _ _)
      · simp only [dictGet?, if_neg h1] at h
        exact ih (dictWF_tail _ _ hwf) h

/-- A looked-up value is among the dict values. -/
theorem get_mem_dictValues (d : DocDict) (key : String) (v : ScoredDoc)
    (h : dictGet? d key = some v) : v ∈ dictValues d := by
  induction d with
  | nil => simp [dictGet?] at h
  | cons q rest ih =>
      obtain ⟨k1, w⟩ := q
      by_cases h1 : k1 = key
      · simp only [dictGet?, if_pos h1] at h
        obtain rfl := Option.some_inj.mp h
        simp [dictValues]
      · simp only [dictGet?, if_neg h1] at h
        simp [dictValues] at ih ⊢
        exact Or.inr (ih h)

/-- In a well-formed dict, every value is found by looking up its id. -/
theorem mem_dictValues_get (d : DocDict) (hwf : dictWF d) (v : ScoredDoc)
    (hv : v ∈ dictValues d) : dictGet? d v.doc.id = some v := by
  obtain ⟨p, hp, hpv⟩ := List.mem_map.mp hv
  have hid : p.2.doc.id = p.1 := hwf.1 p hp
  have := dictGet_of_mem_wf d hwf p hp
  rw [hpv] at hid this
  rw [hid]
  exact this

/-- In a well-formed dict, the value ids ARE the keys. -/
theorem dictValues_ids (d : DocDict) (hwf : dictWF d) :
    (dictValues d).map (fun v => v.doc.id) = dictKeys d := by
  show (d.map Prod.snd).map (fun v => v.doc.id) = d.map Prod.fst
  rw [List.map_map]
  exact List.map_congr_left hwf.1

/-- `recentStep` only writes the key of its document. -/
theorem recentStep_get_ne (d : DocDict) (doc : Doc) (k : String)
    (h : doc.id ≠ k) : dictGet? (recentStep d doc) k = dictGet? d k := by
  simp [recentStep, dictGet_dictSet, h]

/-- `sharedStep` only writes the key of its document. -/
theorem sharedStep_get_ne (d : DocDict) (doc : Doc) (k : String)
    (h : doc.id ≠ k) : dictGet? (sharedStep d doc) k = dictGet? d k := by
  unfold sharedStep
  cases dictGet? d doc.id <;> simp [dictGet_dictSet, h]

/-- The recent loop does not touch keys outside its document ids. -/
theorem recent_loop_get_ne (l : List Doc) : ∀ d : DocDict, ∀ k : String,
    k ∉ l.map Doc.id → dictGet? (l.foldl recentStep d) k = dictGet? d k := by
  induction l with
  | nil => intro d k _; rfl
  | cons doc t ih =>
      intro d k h
      simp only [List.map_cons, List.mem_cons] at h
      push_neg at h
      rw [List.foldl_cons, ih (recentStep d doc) k h.2,
        recentStep_get_ne d doc k (fun he => h.1 he.symm)]

/-- The shared loop does not touch keys outside its document ids. -/
theorem shared_loop_get_ne (l : List Doc) : ∀ d : DocDict, ∀ k : String,
    k ∉ l.map Doc.id → dictGet? (l.foldl sharedStep d) k = dictGet? d k := by
  induction l with
  | nil => intro d k _; rfl
  | cons doc t ih =>
      intro d k h
      simp only [List.map_cons, List.mem_cons] at h
      push_neg at h
      rw [List.foldl_cons, ih (sharedStep d doc) k h.2,
        sharedStep_get_ne d doc k (fun he => h.1 he.symm)]

/-- After the recent loop, every id of the recent list is stored with score
1 and sources [recent] (the last occurrence of a duplicated id wins). -/
theorem recent_loop_get_mem (l : List Doc) : ∀ d : DocDict, ∀ k : String,
    k ∈ l.map Doc.id →
    ∃ doc : Doc, dictGet? (l.foldl recentStep d) k =
      some { doc := doc, priority_score := 1, sources := ["recent"] } := by
  induction l with
  | nil => intro d k h; simp at h
  | cons doc t ih =>
      intro d k h
      by_cases h2 : k ∈ t.map Doc.id
      · exact ih (recentStep d doc) k h2
      · have hk : doc.id = k := by
          simp only [List.map_cons, List.mem_cons] at h
          rcases h with h | h
          · exact h.symm
          · exact absurd h h2
        refine ⟨doc, ?_⟩
        rw [List.foldl_cons, recent_loop_get_ne t (recentStep d doc) k h2]
        simp [recentStep, dictGet_dictSet, hk]

/-- The shared loop, run over a list in which `k` occurs exactly once, adds
2 and the shared tag to an entry stored with score 1 and sources
[recent]. -/
theorem shared_loop_once (l : List Doc) : ∀ d : DocDict, ∀ k : String, ∀ doc0 : Doc,
    (l.map Doc.id).count k = 1 →
    dictGet? d k = some { doc := doc0, priority_score := 1, sources := ["recent"] } →
    dictGet? (l.foldl sharedStep d) k =
      some { doc := doc0, priority_score := 3, sources := ["recent", "shared"] } := by
  induction l with
  | nil => intro d k doc0 hcount _; simp at hcount
  | cons doc t ih =>
      intro d k doc0 hcount hget
      by_cases hd : doc.id = k
      · have hzero : (t.map Doc.id).count k = 0 := by
          simp [List.count_cons, hd] at hcount
          omega
        have hnot : k ∉ t.map Doc.id := List.count_eq_zero.mp hzero
        rw [List.foldl_cons, shared_loop_get_ne t _ k hnot]
        unfold sharedStep
        rw [hd, hget]
        simp [dictGet_dictSet]
      · have hcount2 : (t.map Doc.id).count k = 1 := by
          simp [List.count_cons, hd] at hcount
          omega
        rw [List.foldl_cons]
        exact ih (sharedStep d doc) k doc0 hcount2
          (by rw [sharedStep_get_ne d doc k hd]; exact hget)

theorem dictWF_recentStep (d : DocDict) (doc : Doc) (h : dictWF d) :
    dictWF (recentStep d doc) :=
  dictWF_dictSet d doc.id _ h rfl

theorem dictWF_sharedStep (d : DocDict) (doc : Doc) (h : dictWF d) :
    dictWF (sharedStep d doc) := by
  unfold sharedStep
  cases hget : dictGet? d doc.id with
  | none => exact dictWF_dictSet d doc.id _ h rfl
  | some e => exact dictWF_dictSet d doc.id _ h (dictGet_wf_id d h doc.id e hget)

theorem dictWF_attachStep (d : DocDict) (att : Attachment) (h : dictWF d) :
    dictWF (attachStep d att) := by
  unfold attachStep
  split
  · split
    · split
      · split
        · next e hget => exact dictWF_dictSet d _ _ h (dictGet_wf_id d h _ e hget)
        · exact h
      · exact h
    · exact h
  · exact h

theorem dictWF_recent_loop (l : List Doc) : ∀ d : DocDict,
    dictWF d → dictWF (l.foldl recentStep d) := by
  induction l with
  | nil => intro d h; exact h
  | cons doc t ih => intro d h; exact ih _ (dictWF_recentStep d doc h)

theorem dictWF_shared_loop (l : List Doc) : ∀ d : DocDict,
    dictWF d → dictWF (l.foldl sharedStep d) := by
  induction l with
  | nil => intro d h; exact h
  | cons doc t ih => intro d h; exact ih _ (dictWF_sharedStep d doc h)

theorem dictWF_attach_loop (atts : List Attachment) : ∀ d : DocDict,
    dictWF d → dictWF (atts.foldl attachStep d) := by
  induction atts with
  | nil => intro d h; exact h
  | cons att t ih => intro d h; exact ih _ (dictWF_attachStep d att h)

theorem dictWF_boost (events : List Event) : ∀ d : DocDict,
    dictWF d → dictWF (boost_calendar_attachments d events) := by
  unfold boost_calendar_attachments
  induction events with
  | nil => intro d h; exact h
  | cons ev t ih => intro d h; exact ih _ (dictWF_attach_loop ev.attachments d h)

theorem mem_keys_recent_loop (l : List Doc) : ∀ d : DocDict, ∀ k : String,
    k ∈ dictKeys (l.foldl recentStep d) ↔ k ∈ dictKeys d ∨ k ∈ l.map Doc.id := by
  induction l with
  | nil => intro d k; simp
  | cons doc t ih =>
      intro d k
      rw [List.foldl_cons, ih]
      simp only [recentStep, mem_dictKeys_dictSet, List.map_cons, List.mem_cons]
      tauto

theorem mem_keys_sharedStep (d : DocDict) (doc : Doc) (k : String) :
    k ∈ dictKeys (sharedStep d doc) ↔ k ∈ dictKeys d ∨ k = doc.id := by
  unfold sharedStep
  cases dictGet? d doc.id <;> simp [mem_dictKeys_dictSet]

theorem mem_keys_shared_loop (l : List Doc) : ∀ d : DocDict, ∀ k : String,
    k ∈ dictKeys (l.foldl sharedStep d) ↔ k ∈ dictKeys d ∨ k ∈ l.map Doc.id := by
  induction l with
  | nil => intro d k; simp
  | cons doc t ih =>
      intro d k
      rw [List.foldl_cons, ih]
      simp only [mem_keys_sharedStep, List.map_cons, List.mem_cons]
      tauto

theorem mem_keys_attachStep (d : DocDict) (att : Attachment) (k : String) :
    k ∈ dictKeys (attachStep d att) ↔ k ∈ dictKeys d := by
  unfold attachStep
  split
  · split
    · split
      · split
        · next e hget =>
            rw [dictKeys_dictSet_of_mem d _ _ (mem_dictKeys_of_get d _ e hget)]
        · exact Iff.rfl
      · exact Iff.rfl
    · exact Iff.rfl
  · exact Iff.rfl

theorem mem_keys_attach_loop (atts : List Attachment) : ∀ d : DocDict, ∀ k : String,
    k ∈ dictKeys (atts.foldl attachStep d) ↔ k ∈ dictKeys d := by
  induction atts with
  | nil => intro d k; exact Iff.rfl
  | cons att t ih =>
      intro d k
      rw [List.foldl_cons, ih, mem_keys_attachStep]

theorem mem_keys_boost (events : List Event) : ∀ d : DocDict, ∀ k : String,
    k ∈ dictKeys (boost_calendar_attachments d events) ↔ k ∈ dictKeys d := by
  unfold boost_calendar_attachments
  induction events with
  | nil => intro d k; exact Iff.rfl
  | cons ev t ih =>
      intro d k
      rw [List.foldl_cons, ih, mem_keys_attach_loop]

/-- Claim C4: the prioritizer output carries exactly the identifiers of the
recent and shared input lists — an id seen only in a calendar attachment is
never added — and in particular every entry tagged calendar_attachment has
an identifier from those two lists. -/
theorem prioritizer_ids (recent_docs shared_docs : List Doc)
    (calendar_events : List Event) (x : String) :
    (x ∈ (prioritize_documents recent_docs shared_docs calendar_events).map
        (fun e => e.doc.id) ↔
      x ∈ recent_docs.map Doc.id ∨ x ∈ shared_docs.map Doc.id) ∧
    (∀ e ∈ prioritize_documents recent_docs shared_docs calendar_events,
      "calendar_attachment" ∈ e.sources →
        e.doc.id ∈ recent_docs.map Doc.id ∨ e.doc.id ∈ shared_docs.map Doc.id) := by
  have hwf3 : dictWF (boost_calendar_attachments
      (shared_docs.foldl sharedStep (recent_docs.foldl recentStep []))
      calendar_events) :=
    dictWF_boost _ _ (dictWF_shared_loop _ _ (dictWF_recent_loop _ _ dictWF_nil))
  have hmain : ∀ y : String,
      y ∈ (prioritize_documents recent_docs shared_docs calendar_events).map
          (fun e => e.doc.id) ↔
        y ∈ recent_docs.map Doc.id ∨ y ∈ shared_docs.map Doc.id := by
    intro y
    have heq : prioritize_documents recent_docs shared_docs calendar_events =
        sortDocs (dictValues (boost_calendar_attachments
          (shared_docs.foldl sharedStep (recent_docs.foldl recentStep []))
          calendar_events)) := rfl
    rw [heq]
    have hperm : (sortDocs (dictValues (boost_calendar_attachments
        (shared_docs.foldl sharedStep (recent_docs.foldl recentStep []))
        calendar_events))).Perm
        (dictValues (boost_calendar_attachments
          (shared_docs.foldl sharedStep (recent_docs.foldl recentStep []))
          calendar_events)) :=
      List.perm_insertionSort docBefore _
    rw [(hperm.map (fun e => e.doc.id)).mem_iff, dictValues_ids _ hwf3,
      mem_keys_boost, mem_keys_shared_loop, mem_keys_recent_loop]
    simp [dictKeys]
  refine ⟨hmain x, ?_⟩
  intro e he _
  exact (hmain e.doc.id).mp (List.mem_map_of_mem (fun e => e.doc.id) he)

/-- Claim C3 (amended): when some identifier appears in the recent list and
exactly once in the shared list (and no calendar events are supplied), its
merged entry exists, has priority score 3 = 1 + 2, and sources exactly
[recent, shared] in that order. -/
theorem merge_both_sources_score (recent_docs shared_docs : List Doc) (k : String)
    (hr : k ∈ recent_docs.map Doc.id)
    (hs : (shared_docs.map Doc.id).count k = 1) :
    (∃ e ∈ prioritize_documents recent_docs shared_docs [], e.doc.id = k) ∧
    (∀ e ∈ prioritize_documents recent_docs shared_docs [], e.doc.id = k →
      e.priority_score = 3 ∧ e.sources = ["recent", "shared"]) := by
  have hwf2 : dictWF (shared_docs.foldl sharedStep (recent_docs.foldl recentStep [])) :=
    dictWF_shared_loop _ _ (dictWF_recent_loop _ _ dictWF_nil)
  obtain ⟨doc0, hg1⟩ := recent_loop_get_mem recent_docs [] k hr
  have hg2 := shared_loop_once shared_docs (recent_docs.foldl recentStep []) k doc0 hs hg1
  have hid : doc0.id = k := dictGet_wf_id _ hwf2 k _ hg2
  have heq : prioritize_documents recent_docs shared_docs [] =
      sortDocs (dictValues
        (shared_docs.foldl sharedStep (recent_docs.foldl recentStep []))) := rfl
  have hperm := List.perm_insertionSort docBefore
    (dictValues (shared_docs.foldl sharedStep (recent_docs.foldl recentStep [])))
  constructor
  · refine ⟨{ doc := doc0, priority_score := 3, sources := ["recent", "shared"] },
      ?_, hid⟩
    rw [heq]
    exact hperm.mem_iff.mpr (get_mem_dictValues _ k _ hg2)
  · intro e he hek
    rw [heq] at he
    have hev := hperm.mem_iff.mp he
    have hgete := mem_dictValues_get _ hwf2 e hev
    rw [hek, hg2] at hgete
    obtain rfl :=
      Option.some_inj.mp hgete
    exact ⟨rfl, rfl⟩

/-- A document appearing in the recent list. -/
def docR : Doc := { id := "d1", name := "R", modified_time := 5, web_link := "w1" }

/-- The same document as returned by the shared query. -/
def docS1 : Doc := { id := "d1", name := "S1", modified_time := 6, web_link := "w2" }

/-- A duplicate shared row with the same identifier. -/
def docS2 : Doc := { id := "d1", name := "S2", modified_time := 7, web_link := "w3" }

/-- Counterexample to claim C3 as stated (over EVERY pair of input lists):
when the shared list carries the identifier twice, the shared +2 is applied
twice, so the merged entry has score 5 and sources
[recent, shared, shared], not score 3 and [recent, shared]. -/
theorem merge_both_sources_counterexample :
    ¬ (∀ e ∈ prioritize_documents [docR] [docS1, docS2] [], e.doc.id = "d1" →
        e.priority_score = 3 ∧ e.sources = ["recent", "shared"]) := by
  intro h
  have hmem : ({ doc := docR, priority_score := 5, sources := ["recent", "shared", "shared"] } : ScoredDoc) ∈ prioritize_documents [docR] [docS1, docS2] [] := by
    have heval : prioritize_documents [docR] [docS1, docS2] [] = [({ doc := docR, priority_score := 5, sources := ["recent", "shared", "shared"] } : ScoredDoc)] := by decide
    rw [heval]
    exact List.mem_singleton.mpr rfl
  have h2 := h _ hmem rfl
  exact absurd h2.1 (by decide)

/-- Witness for (amended) C3: one recent row and one shared row with the
same identifier merge to score 3 with sources [recent, shared]. -/
theorem merge_both_sources_witness :
    (∃ e ∈ prioritize_documents [docR] [docS1] [], e.doc.id = "d1") ∧
    (∀ e ∈ prioritize_documents [docR] [docS1] [], e.doc.id = "d1" →
      e.priority_score = 3 ∧ e.sources = ["recent", "shared"]) :=
  merge_both_sources_score [docR] [docS1] "d1" (by decide) (by decide)
